import Mathlib

/-!
Formal model of the offline-first sync layer and analytics event batcher of
the Jawala business directory app.

The embedding is shallow: the IndexedDB-backed cache (`cacheService`) becomes
explicit state passing over association-list object stores with `put`
(upsert-by-key) semantics, the Supabase accessors become `Except`-valued
inputs, and asynchronous effects (promise rejection, `Promise.all` of the
three cache writes, timers, in-flight network batches) become explicit
parameters and actions of a step function.  Machine integers
(`Date.now()` milliseconds, counts) are modelled as `Nat`.
-/

namespace Jawala

/-- Application-side business record (camelCase shape produced by
`dbBusinessToBusiness` in the Supabase service). -/
structure Business where
  id : String
  category : String
  shopName : String
  ownerName : String
  contactNumber : String
  address : Option String
  openingHours : Option String
  services : List String
  homeDelivery : Bool
  paymentOptions : List String
deriving DecidableEq, Repr

/-- Category record (`id`, `name`, `icon`). -/
structure Category where
  id : String
  name : String
  icon : String
deriving DecidableEq, Repr

/-- Value stored in the `businesses` object store: the business record spread
together with a local-only `_synced_at` timestamp
(`{ ...business, _synced_at: now }`). -/
structure StoredBusiness extends Business where
  _synced_at : Nat
deriving DecidableEq, Repr

/-- Data version descriptor used for cache validation (`DataVersion` in
`cacheService`): remote record count, ISO timestamp of last change, and the
local timestamp of the last successful sync. -/
structure DataVersion where
  business_count : Nat
  last_updated : String
  last_sync : Nat
deriving DecidableEq, Repr

/-- IndexedDB `put` on an object store with a key path: replaces the record
with the same key if present, otherwise appends. -/
def putByKey {α : Type} (key : α → String) : List α → α → List α
  | [], v => [v]
  | s :: rest, v => if key s = key v then v :: rest else s :: putByKey key rest v

/-- State of the local IndexedDB database `jawala-business-db`: the
`businesses`, `categories` and `metadata` object stores.  The metadata store
only ever holds the `data_version` entry, so its values are modelled as
`DataVersion`. -/
structure CacheState where
  businesses : List StoredBusiness
  categories : List Category
  metadata : List (String × DataVersion)
deriving DecidableEq, Repr

/-- Read a metadata entry (`getMetadata`): `db.get('metadata', key)`,
returning the stored value or null. -/
def getMetadata (key : String) (st : CacheState) : Option DataVersion :=
  (st.metadata.find? (fun p => p.1 = key)).map (fun p => p.2)

/-- Write a metadata entry (`setMetadata`): `db.put('metadata', {key, value, ...})`. -/
def setMetadata (key : String) (value : DataVersion) (st : CacheState) : CacheState :=
  { st with metadata := putByKey (fun p => p.1) st.metadata (key, value) }

/-- Local version descriptor (`getLocalVersion`): metadata entry `data_version`. -/
def getLocalVersion (st : CacheState) : Option DataVersion :=
  getMetadata "data_version" st

/-- Persist the local version descriptor (`setLocalVersion`). -/
def setLocalVersion (version : DataVersion) (st : CacheState) : CacheState :=
  setMetadata "data_version" version st

/-- Read all cached categories (`getCachedCategories`): `db.getAll('categories')`. -/
def getCachedCategories (st : CacheState) : List Category :=
  st.categories

/-- Replace-all on the categories store (`setCachedCategories`): one
transaction that clears the store and `put`s each category. -/
def setCachedCategories (categories : List Category) (st : CacheState) : CacheState :=
  { st with categories := categories.foldl (putByKey Category.id) [] }

/-- Read all cached businesses (`getCachedBusinesses`): `db.getAll('businesses')`
with the local `_synced_at` field stripped from every record. -/
def getCachedBusinesses (st : CacheState) : List Business :=
  st.businesses.map StoredBusiness.toBusiness

/-- Replace-all on the businesses store (`setCachedBusinesses`): one
transaction that clears the store and `put`s each business stamped with
`_synced_at := now`. -/
def setCachedBusinesses (businesses : List Business) (now : Nat) (st : CacheState) :
    CacheState :=
  { st with businesses :=
      businesses.foldl (fun store b => putByKey (fun s => s.id) store ⟨b, now⟩) [] }

/-- Result tag of a sync decision (`SyncResult.action` union in `cacheService`). -/
inductive SyncAction where
  | no_change
  | full_sync
  | incremental_sync
deriving DecidableEq, Repr

/-- Result of `smartSync`. -/
structure SyncResult where
  action : SyncAction
  businesses : List Business
  categories : List Category
  fromCache : Bool
deriving DecidableEq, Repr

/-- Sync decision (`checkSyncNeeded`): full sync when there is no local
descriptor, or when the business count differs, or when the last-updated
timestamp differs; otherwise no change.  `last_sync` is never compared. -/
def checkSyncNeeded (remoteVersion : DataVersion) (st : CacheState) : SyncAction :=
  match getLocalVersion st with
  | none => SyncAction.full_sync
  | some localVersion =>
    if localVersion.business_count ≠ remoteVersion.business_count then
      SyncAction.full_sync
    else if localVersion.last_updated ≠ remoteVersion.last_updated then
      SyncAction.full_sync
    else
      SyncAction.no_change

/-- Environment of one `smartSync` call: the outcome of the caller-supplied
lightweight version accessor, the outcome of the caller-supplied heavy data
accessor (a rejected promise is `Except.error ()`), whether each of the three
cache writes of step 4 succeeds (each runs in its own IndexedDB transaction,
so it either commits fully or rolls back; `Promise.all` rejects when any of
them fails but the ones that committed stay committed), and the current
`Date.now()` value. -/
structure SyncEnv where
  fetchRemoteVersion : Except Unit DataVersion
  fetchAllData : Except Unit (List Business × List Category)
  writeBusinessesOk : Bool
  writeCategoriesOk : Bool
  writeVersionOk : Bool
  now : Nat
deriving Repr

/-- Operation counts observed during one `smartSync` call: calls to the heavy
`fetchAllData` accessor, replace-all transactions attempted on the businesses
and categories stores, and version-descriptor writes attempted. -/
structure SyncTrace where
  fullFetches : Nat
  businessReplaceAlls : Nat
  categoryReplaceAlls : Nat
  versionWrites : Nat
deriving DecidableEq, Repr

/-- Body of the `try` block of `smartSync`: check the remote version, serve
from cache on `no_change`, otherwise fetch everything and run the three
step-4 writes under `Promise.all`.  Returns the result (or the escaping
rejection), the cache state as left behind, and the operation trace. -/
def smartSyncTry (env : SyncEnv) (st : CacheState) :
    Except Unit SyncResult × CacheState × SyncTrace :=
  match env.fetchRemoteVersion with
  | Except.error e => (Except.error e, st, ⟨0, 0, 0, 0⟩)
  | Except.ok remoteVersion =>
    match checkSyncNeeded remoteVersion st with
    | SyncAction.no_change =>
      (Except.ok
        { action := SyncAction.no_change
          businesses := getCachedBusinesses st
          categories := getCachedCategories st
          fromCache := true }, st, ⟨0, 0, 0, 0⟩)
    | _ =>
      match env.fetchAllData with
      | Except.error e => (Except.error e, st, ⟨1, 0, 0, 0⟩)
      | Except.ok (businesses, categories) =>
        let st1 : CacheState :=
          { businesses :=
              if env.writeBusinessesOk then
                (setCachedBusinesses businesses env.now st).businesses
              else st.businesses
            categories :=
              if env.writeCategoriesOk then
                (setCachedCategories categories st).categories
              else st.categories
            metadata :=
              if env.writeVersionOk then
                (setLocalVersion { remoteVersion with last_sync := env.now } st).metadata
              else st.metadata }
        if env.writeBusinessesOk && env.writeCategoriesOk && env.writeVersionOk then
          (Except.ok
            { action := SyncAction.full_sync
              businesses := businesses
              categories := categories
              fromCache := false }, st1, ⟨1, 1, 1, 1⟩)
        else
          (Except.error (), st1, ⟨1, 1, 1, 1⟩)

/-- `smartSync`: the `try` body with its catch-all handler.  Any rejection is
swallowed and answered with whatever the local store currently holds, tagged
`no_change` / `fromCache = true`.  The function is total: no exception
escapes. -/
def smartSync (env : SyncEnv) (st : CacheState) : SyncResult × CacheState × SyncTrace :=
  match smartSyncTry env st with
  | (Except.ok result, st1, tr) => (result, st1, tr)
  | (Except.error _, st1, tr) =>
    ({ action := SyncAction.no_change
       businesses := getCachedBusinesses st1
       categories := getCachedCategories st1
       fromCache := true }, st1, tr)

/-- Error object of a Supabase query (`{ code: ... }`); only the code is
inspected by the program. -/
structure QueryError where
  code : String
deriving DecidableEq, Repr

/-- Outcome of the head count query `select('*', { count: 'exact', head: true })`:
the count (null on failure) and the error, if any. -/
structure CountQueryResult where
  count : Option Nat
  error : Option QueryError
deriving DecidableEq, Repr

/-- Outcome of the most-recent-timestamp query
`select('updated_at').order(...).limit(1).single()`: the `updated_at` value of
the single row (null when there is no row or on failure) and the error, if
any (`PGRST116` when the table is empty). -/
structure UpdatedQueryResult where
  updated_at : Option String
  error : Option QueryError
deriving DecidableEq, Repr

/-- JavaScript `a || b` on a nullable string: the fallback is used when the
value is null or the empty string (both falsy). -/
def jsOrElse (v : Option String) (dflt : String) : String :=
  match v with
  | some s => if s = "" then dflt else s
  | none => dflt

/-- Remote version accessor (`getDataVersion` in the Supabase service): runs
the count query and the most-recent-timestamp query, tolerates `PGRST116`
(no rows) on the latter, and on any other failure of either query falls into
the catch branch returning the safe default descriptor
`{ business_count: 0, last_updated: now, last_sync: now }`.  The function is
total: it never throws. -/
def getDataVersion (countRes : CountQueryResult) (updatedRes : UpdatedQueryResult)
    (nowIso : String) (nowMs : Nat) : DataVersion :=
  match countRes.error with
  | some _ =>
    { business_count := 0, last_updated := nowIso, last_sync := nowMs }
  | none =>
    match updatedRes.error with
    | some e =>
      if e.code ≠ "PGRST116" then
        { business_count := 0, last_updated := nowIso, last_sync := nowMs }
      else
        { business_count := countRes.count.getD 0
          last_updated := jsOrElse updatedRes.updated_at nowIso
          last_sync := nowMs }
    | none =>
      { business_count := countRes.count.getD 0
        last_updated := jsOrElse updatedRes.updated_at nowIso
        last_sync := nowMs }

/-- Analytics flag (`isAnalyticsEnabled` in `analyticsClient`):
`!!(analyticsUrl && analyticsAnonKey)` — true exactly when both environment
strings are non-empty (the only JS-falsy string is the empty one). -/
def isAnalyticsEnabled (analyticsUrl analyticsAnonKey : String) : Bool :=
  analyticsUrl ≠ "" && analyticsAnonKey ≠ ""

/-- Analytics event as held in `eventQueue`: target table name and payload
(the payload object is opaque to the batcher; it is modelled by an identifier). -/
structure Event where
  table : String
  data : Nat
deriving DecidableEq, Repr

/-- Flush delay of the debounce timer (`FLUSH_INTERVAL`, ms). -/
def FLUSH_INTERVAL : Nat := 5000

/-- Queue size threshold that triggers an immediate flush (`MAX_QUEUE_SIZE`). -/
def MAX_QUEUE_SIZE : Nat := 10

/-- State of the event batcher: the module-level `eventQueue` and
`flushTimeout` variables, plus the batches swapped out by `flushEvents`
whose bulk-insert network calls have not yet completed (`inFlight`), the
batches whose network calls have completed (`sent`), and a ghost log of every
event ever accepted into the queue (`enqLog`). -/
structure TrackerState where
  eventQueue : List Event
  flushTimeoutPending : Bool
  inFlight : List (List Event)
  sent : List (List Event)
  enqLog : List Event
deriving DecidableEq, Repr

/-- Initial batcher state: empty queue, no timer, nothing in flight. -/
def initTrackerState : TrackerState :=
  { eventQueue := [], flushTimeoutPending := false, inFlight := [], sent := [], enqLog := [] }

/-- Synchronous part of `flushEvents`, up to its first `await`: return early
when the queue is empty or analytics is disabled, otherwise copy the queue
into `eventsToSend` and reset `eventQueue = []`.  The copied batch becomes
in-flight; `flushTimeout` is not touched. -/
def flushSwap (enabled : Bool) (st : TrackerState) : TrackerState :=
  if st.eventQueue.length = 0 || !enabled then st
  else { st with eventQueue := [], inFlight := st.inFlight ++ [st.eventQueue] }

/-- Completion of the network part of one in-flight `flushEvents` call (the
grouped bulk inserts of batch `i`); completions may happen in any order. -/
def flushComplete (i : Nat) (st : TrackerState) : TrackerState :=
  match st.inFlight.get? i with
  | none => st
  | some batch =>
    { st with inFlight := st.inFlight.eraseIdx i, sent := st.sent ++ [batch] }

/-- `scheduleFlush`: clear any previously scheduled timer and set a fresh one,
so at most one timer is ever pending; the flag records that one is. -/
def scheduleFlush (st : TrackerState) : TrackerState :=
  { st with flushTimeoutPending := true }

/-- `queueEvent`: a no-op when analytics is disabled; otherwise push the event
and either start an immediate (un-awaited) flush when the queue has reached
`MAX_QUEUE_SIZE`, or (re)schedule the debounce timer. -/
def queueEvent (enabled : Bool) (table : String) (data : Nat) (st : TrackerState) :
    TrackerState :=
  if !enabled then st
  else
    let st1 := { st with eventQueue := st.eventQueue ++ [⟨table, data⟩],
                         enqLog := st.enqLog ++ [⟨table, data⟩] }
    if MAX_QUEUE_SIZE ≤ st1.eventQueue.length then flushSwap enabled st1
    else scheduleFlush st1

/-- Firing of the pending debounce timer: the timer is consumed and
`flushEvents` runs. -/
def timerFire (enabled : Bool) (st : TrackerState) : TrackerState :=
  if st.flushTimeoutPending then flushSwap enabled { st with flushTimeoutPending := false }
  else st

/-- Direct call to `flushEvents` (the page-unload handler). -/
def flushCall (enabled : Bool) (st : TrackerState) : TrackerState :=
  flushSwap enabled st

/-- One interleaved action against the batcher: an `queueEvent` call, the
debounce timer firing, the completion of one in-flight batch's network calls,
or a direct `flushEvents` call. -/
inductive TrackerAct where
  | enq (table : String) (data : Nat)
  | timer
  | complete (i : Nat)
  | flush
deriving DecidableEq, Repr

/-- Small-step semantics of the batcher. -/
def trackerStep (enabled : Bool) (st : TrackerState) : TrackerAct → TrackerState
  | TrackerAct.enq table data => queueEvent enabled table data st
  | TrackerAct.timer => timerFire enabled st
  | TrackerAct.complete i => flushComplete i st
  | TrackerAct.flush => flushCall enabled st

/-- Run a sequence of interleaved batcher actions from the initial state. -/
def trackerRun (enabled : Bool) (acts : List TrackerAct) : TrackerState :=
  acts.foldl (trackerStep enabled) initTrackerState

/-- Run a sequence of plain `queueEvent` calls from the initial state. -/
def enqRun (enabled : Bool) (evs : List (String × Nat)) : TrackerState :=
  trackerRun enabled (evs.map (fun p => TrackerAct.enq p.1 p.2))

/-- Recency window for the presence heartbeat (`MIN_ACTIVITY_GAP`, ms). -/
def MIN_ACTIVITY_GAP : Nat := 10000

/-- Heartbeat interval (`PING_INTERVAL`, ms). -/
def PING_INTERVAL : Nat := 20000

/-- Upsert issued by the presence heartbeat into `live_users`, keyed by
`device_id` (`onConflict: 'device_id'`). -/
structure LiveUserUpsert where
  device_id : String
  user_name : Option String
  is_active : Bool
deriving DecidableEq, Repr

/-- Presence heartbeat (`sendPing`): returns early — issuing no network
operation — when the tab is hidden, when the last user interaction is older
than `MIN_ACTIVITY_GAP`, or when analytics is disabled; otherwise issues the
last-seen upsert keyed by the device identifier.  `now - lastActivity` is
never negative in the program (`lastActivity` is a previous `Date.now()`),
matching truncated `Nat` subtraction. -/
def sendPing (enabled isTabActive : Bool) (now lastActivity : Nat)
    (deviceId : String) (userName : Option String) : Option LiveUserUpsert :=
  if !isTabActive || decide (MIN_ACTIVITY_GAP < now - lastActivity) || !enabled then
    none
  else
    some { device_id := deviceId, user_name := userName, is_active := true }

/-- Conservation property of the batcher: the events inside completed
batches, in-flight batches and the live queue are, as a multiset, exactly the
events ever accepted into the queue — so every accepted event belongs to
exactly one flush attempt (or still awaits one), with no loss and no
duplication. -/
def batchConservation (st : TrackerState) : Prop :=
  List.Perm (st.sent.flatten ++ st.inFlight.flatten ++ st.eventQueue) st.enqLog

/-- Concrete business record used to instantiate the theorems. -/
def sampleBusinessA : Business :=
  ⟨"b1", "grocery", "Shop A", "Owner A", "9000000001", none, none, [], false, []⟩

/-- Second concrete business record, with a different id. -/
def sampleBusinessB : Business :=
  ⟨"b2", "medical", "Shop B", "Owner B", "9000000002", none, none, ["x"], true, []⟩

/-- Concrete category record used to instantiate the theorems. -/
def sampleCategoryA : Category := ⟨"c1", "Grocery", "fa-store"⟩

/-- Concrete local version descriptor used to instantiate the theorems. -/
def sampleLocalVersion : DataVersion := ⟨2, "2024-01-01T00:00:00Z", 111⟩

/-- Concrete cache state holding one business, one category and the local
version descriptor `sampleLocalVersion`. -/
def sampleCache : CacheState :=
  ⟨[⟨sampleBusinessA, 50⟩], [sampleCategoryA], [("data_version", sampleLocalVersion)]⟩

/-- A `put` of a record whose key is absent from the store appends it. -/
theorem putByKey_fresh {α : Type} (key : α → String) (v : α) (store : List α)
    (h : ∀ s ∈ store, key s ≠ key v) : putByKey key store v = store ++ [v] := by
  induction store with
  | nil => rfl
  | cons s rest ih =>
    simp only [putByKey, List.cons_append]
    rw [if_neg (h s (by simp)), ih (fun x hx => h x (by simp [hx]))]

/-- Folding `put`s of pairwise-fresh records over a store appends them in
order. -/
theorem foldl_put_fresh (now : Nat) (bs : List Business) :
    ∀ (store : List StoredBusiness),
      (∀ b ∈ bs, ∀ s ∈ store, s.id ≠ b.id) →
      bs.Pairwise (fun a b => a.id ≠ b.id) →
      bs.foldl (fun st b => putByKey (fun s => s.id) st ⟨b, now⟩) store
        = store ++ bs.map (fun b => (⟨b, now⟩ : StoredBusiness)) := by
  induction bs with
  | nil => intro store _ _; simp
  | cons b rest ih =>
    intro store hfresh hpair
    simp only [List.foldl_cons, List.map_cons]
    rw [putByKey_fresh (fun s => s.id) ⟨b, now⟩ store
      (fun s hs => hfresh b (by simp) s hs)]
    have hfr2 : ∀ x ∈ rest, ∀ s ∈ store ++ [(⟨b, now⟩ : StoredBusiness)], s.id ≠ x.id := by
      intro x hx s hs
      rcases List.mem_append.1 hs with hs | hs
      · exact hfresh x (by simp [hx]) s hs
      · have hb : s = ⟨b, now⟩ := by simpa using hs
        subst hb
        exact (List.pairwise_cons.1 hpair).1 x hx
    rw [ih (store ++ [(⟨b, now⟩ : StoredBusiness)]) hfr2 (List.pairwise_cons.1 hpair).2]
    simp

/-- Claim C5: for pairwise-distinct identifiers and any prior store contents,
`setCachedBusinesses` followed immediately by `getCachedBusinesses` returns
exactly the records passed in, with `_synced_at` stripped — in particular the
same set of records, and no record present before the call survives it. -/
theorem setCachedBusinesses_getCachedBusinesses_roundtrip
    (bs : List Business) (now : Nat) (st : CacheState)
    (h : bs.Pairwise (fun a b => a.id ≠ b.id)) :
    getCachedBusinesses (setCachedBusinesses bs now st) = bs := by
  unfold getCachedBusinesses setCachedBusinesses
  simp only
  rw [foldl_put_fresh now bs [] (by simp) h]
  simp only [List.nil_append, List.map_map]
  have hcomp : (StoredBusiness.toBusiness ∘ fun b => (⟨b, now⟩ : StoredBusiness)) = id := rfl
  rw [hcomp, List.map_id]

/-- Witness for claim C5 at two concrete records over a non-empty prior
store. -/
theorem setCachedBusinesses_getCachedBusinesses_roundtrip_witness :
    getCachedBusinesses (setCachedBusinesses [sampleBusinessA, sampleBusinessB] 77 sampleCache)
      = [sampleBusinessA, sampleBusinessB] :=
  setCachedBusinesses_getCachedBusinesses_roundtrip [sampleBusinessA, sampleBusinessB] 77
    sampleCache (by decide)

/-- Looking up the key just written by `putByKey` yields the written value. -/
theorem find_putByKey_same (k : String) (v : DataVersion)
    (l : List (String × DataVersion)) :
    ((putByKey (fun p => p.1) l (k, v)).find? (fun p => p.1 = k)).map (fun p => p.2)
      = some v := by
  induction l with
  | nil => simp [putByKey]
  | cons p rest ih =>
    by_cases hp : p.1 = k
    · simp [putByKey, hp]
    · simp only [putByKey, if_neg hp]
      rw [List.find?_cons_of_neg _ (by simp [hp])]
      exact ih

/-- Reading a metadata key immediately after writing it yields the written
value. -/
theorem getMetadata_setMetadata_same (k : String) (v : DataVersion) (st : CacheState) :
    getMetadata k (setMetadata k v st) = some v := by
  unfold getMetadata setMetadata
  exact find_putByKey_same k v st.metadata

/-- Claim C2: when the remote descriptor matches the stored local descriptor
in both record count and last-updated timestamp (`last_sync` playing no
role), `smartSync` serves the cached businesses and categories with
`action = no_change` and `fromCache = true`, leaves the store untouched, and
the trace records zero full-data fetches and zero writes. -/
theorem smartSync_no_change_spec (env : SyncEnv) (st : CacheState) (rv lv : DataVersion)
    (hrv : env.fetchRemoteVersion = Except.ok rv)
    (hlv : getLocalVersion st = some lv)
    (hcount : lv.business_count = rv.business_count)
    (hupd : lv.last_updated = rv.last_updated) :
    smartSync env st =
      ({ action := SyncAction.no_change
         businesses := getCachedBusinesses st
         categories := getCachedCategories st
         fromCache := true }, st, ⟨0, 0, 0, 0⟩) := by
  have hcheck : checkSyncNeeded rv st = SyncAction.no_change := by
    unfold checkSyncNeeded
    rw [hlv]
    simp [hcount, hupd]
  simp [smartSync, smartSyncTry, hrv, hcheck]

/-- Witness for claim C2: a remote descriptor equal to the sample local one
in count and timestamp but with a different `last_sync`. -/
theorem smartSync_no_change_spec_witness :
    smartSync ⟨Except.ok ⟨2, "2024-01-01T00:00:00Z", 999⟩,
        Except.ok ([sampleBusinessB], []), true, true, true, 400⟩ sampleCache =
      ({ action := SyncAction.no_change
         businesses := getCachedBusinesses sampleCache
         categories := getCachedCategories sampleCache
         fromCache := true }, sampleCache, ⟨0, 0, 0, 0⟩) :=
  smartSync_no_change_spec _ sampleCache ⟨2, "2024-01-01T00:00:00Z", 999⟩
    sampleLocalVersion rfl rfl rfl rfl

/-- Claim C1: when the remote descriptor differs from the stored local one in
record count or last-updated timestamp and all operations succeed,
`smartSync` performs exactly one full-data fetch and one replace-all per
collection, persists a local descriptor copying the remote count and
timestamp with `last_sync` stamped to the current time, and returns the fresh
data tagged `full_sync` / `fromCache = false`. -/
theorem smartSync_full_sync_spec (env : SyncEnv) (st : CacheState) (rv lv : DataVersion)
    (bs : List Business) (cs : List Category)
    (hrv : env.fetchRemoteVersion = Except.ok rv)
    (hlv : getLocalVersion st = some lv)
    (hdiff : rv.business_count ≠ lv.business_count ∨ rv.last_updated ≠ lv.last_updated)
    (hdata : env.fetchAllData = Except.ok (bs, cs))
    (hwb : env.writeBusinessesOk = true)
    (hwc : env.writeCategoriesOk = true)
    (hwv : env.writeVersionOk = true) :
    smartSync env st =
      ({ action := SyncAction.full_sync
         businesses := bs
         categories := cs
         fromCache := false },
       { businesses := (setCachedBusinesses bs env.now st).businesses
         categories := (setCachedCategories cs st).categories
         metadata := (setLocalVersion { rv with last_sync := env.now } st).metadata },
       ⟨1, 1, 1, 1⟩) ∧
    getLocalVersion (smartSync env st).2.1 =
      some ⟨rv.business_count, rv.last_updated, env.now⟩ := by
  have hcheck : checkSyncNeeded rv st = SyncAction.full_sync := by
    unfold checkSyncNeeded
    rw [hlv]
    rcases hdiff with h | h
    · simp [Ne.symm h]
    · by_cases hc : lv.business_count = rv.business_count
      · simp [hc, Ne.symm h]
      · simp [hc]
  have hmain : smartSync env st =
      ({ action := SyncAction.full_sync
         businesses := bs
         categories := cs
         fromCache := false },
       { businesses := (setCachedBusinesses bs env.now st).businesses
         categories := (setCachedCategories cs st).categories
         metadata := (setLocalVersion { rv with last_sync := env.now } st).metadata },
       (⟨1, 1, 1, 1⟩ : SyncTrace)) := by
    simp [smartSync, smartSyncTry, hrv, hcheck, hdata, hwb, hwc, hwv]
  refine ⟨hmain, ?_⟩
  rw [hmain]
  exact getMetadata_setMetadata_same "data_version" _ st

/-- Witness for claim C1: the sample cache against a remote descriptor with a
larger count. -/
theorem smartSync_full_sync_spec_witness :
    smartSync ⟨Except.ok ⟨3, "2024-02-02T00:00:00Z", 0⟩,
        Except.ok ([sampleBusinessA, sampleBusinessB], [sampleCategoryA]),
        true, true, true, 500⟩ sampleCache =
      ({ action := SyncAction.full_sync
         businesses := [sampleBusinessA, sampleBusinessB]
         categories := [sampleCategoryA]
         fromCache := false },
       { businesses :=
           (setCachedBusinesses [sampleBusinessA, sampleBusinessB] 500 sampleCache).businesses
         categories := (setCachedCategories [sampleCategoryA] sampleCache).categories
         metadata :=
           (setLocalVersion ⟨3, "2024-02-02T00:00:00Z", 500⟩ sampleCache).metadata },
       ⟨1, 1, 1, 1⟩) :=
  (smartSync_full_sync_spec _ sampleCache ⟨3, "2024-02-02T00:00:00Z", 0⟩
    sampleLocalVersion [sampleBusinessA, sampleBusinessB] [sampleCategoryA]
    rfl rfl (Or.inl (by decide)) rfl rfl rfl rfl).1

/-- Claim C3: whenever the remote version fetch rejects, or a sync is needed
and the full-data fetch rejects, or a sync is needed and any of the three
step-4 cache writes fails, the catch-all of `smartSync` answers with whatever
the local store holds at that point (possibly empty, possibly partially
updated), tagged `no_change` / `fromCache = true`.  `smartSync` is a total
function, so no exception escapes it. -/
theorem smartSync_failure_fallback (env : SyncEnv) (st : CacheState)
    (hfail : env.fetchRemoteVersion = Except.error () ∨
      ∃ rv, env.fetchRemoteVersion = Except.ok rv ∧
        checkSyncNeeded rv st ≠ SyncAction.no_change ∧
        (env.fetchAllData = Except.error () ∨
          ¬(env.writeBusinessesOk = true ∧ env.writeCategoriesOk = true ∧
            env.writeVersionOk = true))) :
    (smartSync env st).1 =
      { action := SyncAction.no_change
        businesses := getCachedBusinesses (smartSync env st).2.1
        categories := getCachedCategories (smartSync env st).2.1
        fromCache := true } := by
  rcases env with ⟨rfetch, dfetch, wb, wc, wv, now⟩
  dsimp only at hfail
  rcases hfail with h | ⟨rv, hrv, hne, hrest⟩
  · subst h
    simp [smartSync, smartSyncTry]
  · subst hrv
    rcases hact : checkSyncNeeded rv st with _ | _ | _
    · exact absurd hact hne
    · rcases hrest with hdata | hflags
      · subst hdata
        simp [smartSync, smartSyncTry, hact]
      · rcases dfetch with e | ⟨bs, cs⟩
        · simp [smartSync, smartSyncTry, hact]
        · have hcond : (wb && wc && wv) = false := by
            rcases wb <;> rcases wc <;> rcases wv <;> simp_all
          simp [smartSync, smartSyncTry, hact, hcond]
    · rcases hrest with hdata | hflags
      · subst hdata
        simp [smartSync, smartSyncTry, hact]
      · rcases dfetch with e | ⟨bs, cs⟩
        · simp [smartSync, smartSyncTry, hact]
        · have hcond : (wb && wc && wv) = false := by
            rcases wb <;> rcases wc <;> rcases wv <;> simp_all
          simp [smartSync, smartSyncTry, hact, hcond]

/-- Witness for claim C3: the remote version fetch rejects over the sample
cache. -/
theorem smartSync_failure_fallback_witness :
    (smartSync ⟨Except.error (), Except.ok ([], []), true, true, true, 0⟩ sampleCache).1 =
      { action := SyncAction.no_change
        businesses := getCachedBusinesses
          (smartSync ⟨Except.error (), Except.ok ([], []), true, true, true, 0⟩ sampleCache).2.1
        categories := getCachedCategories
          (smartSync ⟨Except.error (), Except.ok ([], []), true, true, true, 0⟩ sampleCache).2.1
        fromCache := true } :=
  smartSync_failure_fallback _ sampleCache (Or.inl rfl)

/-- Claim C10: the result action of `smartSync` is always `no_change` or
`full_sync`, and `checkSyncNeeded` likewise never produces the declared but
unused `incremental_sync` variant. -/
theorem smartSync_action_never_incremental (env : SyncEnv) (st : CacheState) :
    ((smartSync env st).1.action = SyncAction.no_change ∨
      (smartSync env st).1.action = SyncAction.full_sync) ∧
    ∀ (rv : DataVersion) (st2 : CacheState),
      checkSyncNeeded rv st2 = SyncAction.no_change ∨
      checkSyncNeeded rv st2 = SyncAction.full_sync := by
  constructor
  · rcases env with ⟨rfetch, dfetch, wb, wc, wv, now⟩
    rcases rfetch with e | rv
    · simp [smartSync, smartSyncTry]
    · rcases hact : checkSyncNeeded rv st with _ | _ | _
      · simp [smartSync, smartSyncTry, hact]
      · rcases dfetch with e | ⟨bs, cs⟩
        · simp [smartSync, smartSyncTry, hact]
        · rcases hcond : (wb && wc && wv) with _ | _
          · simp [smartSync, smartSyncTry, hact, hcond]
          · simp [smartSync, smartSyncTry, hact, hcond]
      · rcases dfetch with e | ⟨bs, cs⟩
        · simp [smartSync, smartSyncTry, hact]
        · rcases hcond : (wb && wc && wv) with _ | _
          · simp [smartSync, smartSyncTry, hact, hcond]
          · simp [smartSync, smartSyncTry, hact, hcond]
  · intro rv st2
    unfold checkSyncNeeded
    rcases getLocalVersion st2 with _ | lv
    · simp
    · by_cases h1 : lv.business_count ≠ rv.business_count <;>
        by_cases h2 : lv.last_updated ≠ rv.last_updated <;>
        simp [h1, h2]

/-- Claim C9: `getDataVersion` is total (it never throws), and on any genuine
failure of the count query or of the most-recent-timestamp query (the
`PGRST116` no-rows code is tolerated, not a failure) it returns the safe
default descriptor with `business_count = 0` and `last_updated` equal to the
current time — so a version-fetch failure presents to the reconciler as a
remote descriptor, one that forces `full_sync` whenever the locally recorded
count is non-zero. -/
theorem getDataVersion_failure_default (countRes : CountQueryResult)
    (updatedRes : UpdatedQueryResult) (nowIso : String) (nowMs : Nat)
    (hfail : countRes.error.isSome = true ∨
      ∃ e, updatedRes.error = some e ∧ e.code ≠ "PGRST116") :
    getDataVersion countRes updatedRes nowIso nowMs =
      { business_count := 0, last_updated := nowIso, last_sync := nowMs } ∧
    ∀ (st : CacheState) (lv : DataVersion), getLocalVersion st = some lv →
      lv.business_count ≠ 0 →
      checkSyncNeeded (getDataVersion countRes updatedRes nowIso nowMs) st =
        SyncAction.full_sync := by
  have hdef : getDataVersion countRes updatedRes nowIso nowMs =
      { business_count := 0, last_updated := nowIso, last_sync := nowMs } := by
    rcases hfail with h | ⟨e, he, hcode⟩
    · rcases hc : countRes.error with _ | e2
      · rw [hc] at h
        simp at h
      · simp [getDataVersion, hc]
    · rcases hc : countRes.error with _ | e2
      · simp [getDataVersion, hc, he, hcode]
      · simp [getDataVersion, hc]
  refine ⟨hdef, ?_⟩
  intro st lv hlv hcount
  rw [hdef]
  unfold checkSyncNeeded
  rw [hlv]
  simp [hcount]

/-- Witness for claim C9: the count query fails with a concrete error. -/
theorem getDataVersion_failure_default_witness :
    getDataVersion ⟨none, some ⟨"500"⟩⟩ ⟨some "2020-01-01", none⟩ "2024-03-03" 9 =
      { business_count := 0, last_updated := "2024-03-03", last_sync := 9 } :=
  (getDataVersion_failure_default ⟨none, some ⟨"500"⟩⟩ ⟨some "2020-01-01", none⟩
    "2024-03-03" 9 (Or.inl rfl)).1

/-- Claim C7: with analytics not configured (either environment string
empty, so `isAnalyticsEnabled` is false), `queueEvent` is a complete no-op —
after any number of enqueue calls the batcher is still in its initial state:
the queue length is zero and no flush timer was ever scheduled. -/
theorem queueEvent_disabled_noop (url key : String) (evs : List (String × Nat))
    (hcfg : url = "" ∨ key = "") :
    enqRun (isAnalyticsEnabled url key) evs = initTrackerState := by
  have hoff : isAnalyticsEnabled url key = false := by
    rcases hcfg with h | h <;> simp [isAnalyticsEnabled, h]
  rw [hoff]
  unfold enqRun trackerRun
  induction evs with
  | nil => rfl
  | cons e rest ih =>
    have h1 : trackerStep false initTrackerState (TrackerAct.enq e.1 e.2)
        = initTrackerState := rfl
    simp only [List.map_cons, List.foldl_cons, h1]
    exact ih

/-- Witness for claim C7: two enqueues with the analytics URL unset. -/
theorem queueEvent_disabled_noop_witness :
    enqRun (isAnalyticsEnabled "" "some-key") [("visit_logs", 1), ("business_interactions", 2)]
      = initTrackerState :=
  queueEvent_disabled_noop "" "some-key" [("visit_logs", 1), ("business_interactions", 2)]
    (Or.inl rfl)

/-- Counterexample to claim C4 as stated: after nine enqueues one flush timer
is pending; the 10th enqueue does trigger the immediate flush (the batch of
all ten events goes in-flight and the queue empties), but `flushEvents` never
touches `flushTimeout`, so the pending timer is NOT cancelled — refuting the
claim's cancellation part. -/
theorem queueEvent_threshold_no_cancel_counterexample :
    (enqRun true [("t", 0), ("t", 1), ("t", 2), ("t", 3), ("t", 4), ("t", 5),
        ("t", 6), ("t", 7), ("t", 8), ("t", 9)]).eventQueue = [] ∧
    (enqRun true [("t", 0), ("t", 1), ("t", 2), ("t", 3), ("t", 4), ("t", 5),
        ("t", 6), ("t", 7), ("t", 8), ("t", 9)]).inFlight.length = 1 ∧
    ¬ ((enqRun true [("t", 0), ("t", 1), ("t", 2), ("t", 3), ("t", 4), ("t", 5),
        ("t", 6), ("t", 7), ("t", 8), ("t", 9)]).flushTimeoutPending = false) := by
  decide

/-- Consecutive enqueues with analytics enabled from a state with no batches,
while the queue stays strictly below the size threshold: every enqueue
appends to the queue and (re)schedules the single debounce timer. -/
theorem enqRun_below_threshold (evs : List (String × Nat)) :
    ∀ (q log : List Event) (flag : Bool),
      q.length + evs.length ≤ 9 →
      (evs.map (fun p => TrackerAct.enq p.1 p.2)).foldl (trackerStep true)
          ⟨q, flag, [], [], log⟩ =
        ⟨q ++ evs.map (fun p => Event.mk p.1 p.2),
         if evs.isEmpty then flag else true, [], [],
         log ++ evs.map (fun p => Event.mk p.1 p.2)⟩ := by
  induction evs with
  | nil =>
    intro q log flag h
    simp
  | cons e rest ih =>
    intro q log flag h
    have h9 : q.length + (rest.length + 1) ≤ 9 := by simpa using h
    simp only [List.map_cons, List.foldl_cons]
    have hstep : trackerStep true ⟨q, flag, [], [], log⟩ (TrackerAct.enq e.1 e.2) =
        ⟨q ++ [Event.mk e.1 e.2], true, [], [], log ++ [Event.mk e.1 e.2]⟩ := by
      unfold trackerStep queueEvent
      have hlen : ¬ MAX_QUEUE_SIZE ≤ q.length + 1 := by
        simp only [MAX_QUEUE_SIZE]
        omega
      simp [hlen, scheduleFlush]
    rw [hstep, ih (q ++ [Event.mk e.1 e.2]) (log ++ [Event.mk e.1 e.2]) true
      (by simp only [List.length_append, List.length_cons, List.length_nil]; omega)]
    simp [List.append_assoc]

/-- Claim C4, amended: with analytics enabled, enqueuing between one and nine
events leaves exactly one pending flush timer (each enqueue replaces any
previously scheduled timer) and triggers no flush; enqueuing a 10th event
while the timer is pending triggers an immediate flush of all ten events —
the pending timer is not cancelled and remains scheduled. -/
theorem queueEvent_batching_amended (evs : List (String × Nat)) (t : String) (d : Nat)
    (hne : evs ≠ []) (hlen : evs.length ≤ 9) :
    enqRun true evs =
      ⟨evs.map (fun p => Event.mk p.1 p.2), true, [], [],
       evs.map (fun p => Event.mk p.1 p.2)⟩ ∧
    (evs.length = 9 →
      enqRun true (evs ++ [(t, d)]) =
        ⟨[], true, [evs.map (fun p => Event.mk p.1 p.2) ++ [Event.mk t d]], [],
         evs.map (fun p => Event.mk p.1 p.2) ++ [Event.mk t d]⟩) := by
  have h1 : enqRun true evs =
      ⟨evs.map (fun p => Event.mk p.1 p.2), true, [], [],
       evs.map (fun p => Event.mk p.1 p.2)⟩ := by
    have hb := enqRun_below_threshold evs [] [] false (by simpa using hlen)
    unfold enqRun trackerRun initTrackerState
    rw [hb]
    simp [List.isEmpty_iff, hne]
  refine ⟨h1, ?_⟩
  intro h9
  unfold enqRun trackerRun
  rw [List.map_append, List.foldl_append]
  have h1' : (List.map (fun p => TrackerAct.enq p.1 p.2) evs).foldl (trackerStep true)
      initTrackerState =
      ⟨evs.map (fun p => Event.mk p.1 p.2), true, [], [],
       evs.map (fun p => Event.mk p.1 p.2)⟩ := h1
  rw [h1']
  simp only [List.map_cons, List.map_nil, List.foldl_cons, List.foldl_nil]
  unfold trackerStep queueEvent
  have hlen10 : MAX_QUEUE_SIZE ≤
      (evs.map (fun p => Event.mk p.1 p.2) ++ [Event.mk t d]).length := by
    simp only [MAX_QUEUE_SIZE, List.length_append, List.length_map, List.length_cons,
      List.length_nil, h9]
    omega
  simp only [Bool.not_true, Bool.false_eq_true, if_false, if_pos hlen10]
  unfold flushSwap
  have hq : ¬ ((evs.map (fun p => Event.mk p.1 p.2) ++ [Event.mk t d]).length = 0
      || !true) = true := by
    simp
  rw [if_neg hq]
  simp

/-- Witness for claim C4 (amended form) at nine concrete events plus a
tenth. -/
theorem queueEvent_batching_amended_witness :
    enqRun true [("t", 0), ("t", 1), ("t", 2), ("t", 3), ("t", 4), ("t", 5),
        ("t", 6), ("t", 7), ("t", 8)] =
      ⟨[⟨"t", 0⟩, ⟨"t", 1⟩, ⟨"t", 2⟩, ⟨"t", 3⟩, ⟨"t", 4⟩, ⟨"t", 5⟩, ⟨"t", 6⟩,
        ⟨"t", 7⟩, ⟨"t", 8⟩], true, [], [],
       [⟨"t", 0⟩, ⟨"t", 1⟩, ⟨"t", 2⟩, ⟨"t", 3⟩, ⟨"t", 4⟩, ⟨"t", 5⟩, ⟨"t", 6⟩,
        ⟨"t", 7⟩, ⟨"t", 8⟩]⟩ :=
  (queueEvent_batching_amended [("t", 0), ("t", 1), ("t", 2), ("t", 3), ("t", 4),
    ("t", 5), ("t", 6), ("t", 7), ("t", 8)] "t" 9 (by decide) (by decide)).1

/-- A list is a permutation of the element at any valid index consed onto the
remainder after erasing that index. -/
theorem perm_get_cons_eraseIdx {α : Type} :
    ∀ (l : List α) (i : Nat) (b : α), l.get? i = some b →
      List.Perm l (b :: l.eraseIdx i)
  | [], i, b, h => by simp at h
  | a :: l, 0, b, h => by
    simp only [List.get?_cons_zero, Option.some.injEq] at h
    subst h
    simp [List.eraseIdx]
  | a :: l, i + 1, b, h => by
    have ih := perm_get_cons_eraseIdx l i b (by simpa using h)
    simp only [List.eraseIdx]
    exact (ih.cons a).trans (List.Perm.swap b a (l.eraseIdx i))

/-- Flattening respects permutation of the outer list of batches. -/
theorem perm_flatten_of_perm {α : Type} {l1 l2 : List (List α)}
    (h : List.Perm l1 l2) : List.Perm l1.flatten l2.flatten := by
  induction h with
  | nil => simp
  | cons x _ ih => simpa using ih.append_left x
  | swap x y l =>
    simp only [List.flatten_cons]
    rw [← List.append_assoc, ← List.append_assoc]
    exact List.perm_append_comm.append_right l.flatten
  | trans _ _ ih1 ih2 => exact ih1.trans ih2

/-- `flushEvents` (the queue swap) preserves batch conservation. -/
theorem flushSwap_conservation (enabled : Bool) (st : TrackerState)
    (h : batchConservation st) : batchConservation (flushSwap enabled st) := by
  unfold flushSwap
  split
  · exact h
  · unfold batchConservation at h ⊢
    simpa [List.flatten_append, List.append_assoc] using h

/-- Every batcher action preserves batch conservation. -/
theorem trackerStep_conservation (enabled : Bool) (st : TrackerState) (act : TrackerAct)
    (h : batchConservation st) : batchConservation (trackerStep enabled st act) := by
  cases act with
  | enq t d =>
    show batchConservation (queueEvent enabled t d st)
    unfold queueEvent
    cases enabled with
    | false => exact h
    | true =>
      have h1 : batchConservation
          { st with eventQueue := st.eventQueue ++ [Event.mk t d],
                    enqLog := st.enqLog ++ [Event.mk t d] } := by
        unfold batchConservation at h ⊢
        simpa [List.append_assoc] using h.append_right [Event.mk t d]
      simp only [Bool.not_true, Bool.false_eq_true, if_false]
      split
      · exact flushSwap_conservation true _ h1
      · exact h1
  | timer =>
    show batchConservation (timerFire enabled st)
    unfold timerFire
    split
    · exact flushSwap_conservation enabled _ h
    · exact h
  | complete i =>
    show batchConservation (flushComplete i st)
    unfold flushComplete
    rcases hg : st.inFlight.get? i with _ | batch
    · exact h
    · unfold batchConservation at h ⊢
      have hperm : List.Perm st.inFlight.flatten
          (batch ++ (st.inFlight.eraseIdx i).flatten) := by
        simpa using perm_flatten_of_perm (perm_get_cons_eraseIdx st.inFlight i batch hg)
      have hstep :
          List.Perm ((st.sent.flatten ++ (batch ++ (st.inFlight.eraseIdx i).flatten))
              ++ st.eventQueue)
            ((st.sent.flatten ++ st.inFlight.flatten) ++ st.eventQueue) :=
        (hperm.symm.append_left st.sent.flatten).append_right st.eventQueue
      simpa [List.flatten_append, List.append_assoc] using hstep.trans h
  | flush =>
    show batchConservation (flushCall enabled st)
    unfold flushCall
    exact flushSwap_conservation enabled st h

/-- Batch conservation holds in every reachable batcher state. -/
theorem trackerRun_conservation (enabled : Bool) (acts : List TrackerAct) :
    batchConservation (trackerRun enabled acts) := by
  unfold trackerRun
  have hgen : ∀ (l : List TrackerAct) (st : TrackerState), batchConservation st →
      batchConservation (l.foldl (trackerStep enabled) st) := by
    intro l
    induction l with
    | nil => intro st h; exact h
    | cons a rest ih =>
      intro st h
      exact ih _ (trackerStep_conservation enabled st a h)
  exact hgen acts initTrackerState (by unfold batchConservation initTrackerState; simp)

/-- After the queue swap of a flush, the live queue is empty. -/
theorem flushCall_eventQueue_nil (st : TrackerState) :
    (flushCall true st).eventQueue = [] := by
  unfold flushCall flushSwap
  split
  · next hcond =>
    simp only [Bool.not_true, Bool.or_false, decide_eq_true_eq] at hcond
    exact List.length_eq_zero.1 hcond
  · rfl

/-- Claim C6: each queued event belongs to exactly one flush attempt.  First
conjunct: in every interleaving of enqueues, timer fires, direct flushes and
network completions, the events in completed batches, in-flight batches and
the live queue form — as a multiset — exactly the log of accepted events (no
loss, no duplication across flush attempts).  Second conjunct: an event
enqueued right after a flush's queue-swap, before that flush's network calls
complete, lands in the live queue (destined for a following flush) and is in
no in-flight or completed batch — in particular not in the batch the current
flush just swapped out. -/
theorem flushEvents_exactly_once :
    (∀ (enabled : Bool) (acts : List TrackerAct),
      List.Perm
        ((trackerRun enabled acts).sent.flatten ++ (trackerRun enabled acts).inFlight.flatten
          ++ (trackerRun enabled acts).eventQueue)
        (trackerRun enabled acts).enqLog) ∧
    (∀ (acts : List TrackerAct) (t : String) (d : Nat),
      Event.mk t d ∉ (trackerRun true acts).enqLog →
      (Event.mk t d ∈
          (queueEvent true t d (flushCall true (trackerRun true acts))).eventQueue ∧
        (∀ b ∈ (queueEvent true t d (flushCall true (trackerRun true acts))).inFlight,
          Event.mk t d ∉ b) ∧
        (∀ b ∈ (queueEvent true t d (flushCall true (trackerRun true acts))).sent,
          Event.mk t d ∉ b))) := by
  constructor
  · intro enabled acts
    exact trackerRun_conservation enabled acts
  · intro acts t d hnotin
    have hcons := trackerRun_conservation true acts
    unfold batchConservation at hcons
    have hnot2 : Event.mk t d ∉
        (trackerRun true acts).sent.flatten ++ (trackerRun true acts).inFlight.flatten
          ++ (trackerRun true acts).eventQueue := fun hmem => hnotin (hcons.mem_iff.1 hmem)
    have hnotS : ∀ b ∈ (trackerRun true acts).sent, Event.mk t d ∉ b := by
      intro b hb hmem
      exact hnot2 (List.mem_append.2 (Or.inl (List.mem_append.2
        (Or.inl (List.mem_flatten.2 ⟨b, hb, hmem⟩)))))
    have hnotI : ∀ b ∈ (trackerRun true acts).inFlight, Event.mk t d ∉ b := by
      intro b hb hmem
      exact hnot2 (List.mem_append.2 (Or.inl (List.mem_append.2
        (Or.inr (List.mem_flatten.2 ⟨b, hb, hmem⟩)))))
    have hnotQ : Event.mk t d ∉ (trackerRun true acts).eventQueue := by
      intro hmem
      exact hnot2 (List.mem_append.2 (Or.inr hmem))
    have hI1 : ∀ b ∈ (flushCall true (trackerRun true acts)).inFlight,
        Event.mk t d ∉ b := by
      unfold flushCall flushSwap
      split
      · exact hnotI
      · intro b hb
        rcases List.mem_append.1 hb with hb | hb
        · exact hnotI b hb
        · have hbq : b = (trackerRun true acts).eventQueue := by simpa using hb
          rw [hbq]
          exact hnotQ
    have hS1 : ∀ b ∈ (flushCall true (trackerRun true acts)).sent,
        Event.mk t d ∉ b := by
      unfold flushCall flushSwap
      split
      · exact hnotS
      · exact hnotS
    have hq2 : queueEvent true t d (flushCall true (trackerRun true acts)) =
        scheduleFlush
          { flushCall true (trackerRun true acts) with
              eventQueue := (flushCall true (trackerRun true acts)).eventQueue
                ++ [Event.mk t d],
              enqLog := (flushCall true (trackerRun true acts)).enqLog
                ++ [Event.mk t d] } := by
      unfold queueEvent
      rw [flushCall_eventQueue_nil]
      simp [MAX_QUEUE_SIZE]
    rw [hq2]
    refine ⟨?_, ?_, ?_⟩
    · simp [scheduleFlush]
    · intro b hb
      exact hI1 b (by simpa [scheduleFlush] using hb)
    · intro b hb
      exact hS1 b (by simpa [scheduleFlush] using hb)

/-- Witness for claim C6: one event is enqueued and swapped out by a flush;
a fresh event enqueued before the flush completes lands in the live queue. -/
theorem flushEvents_exactly_once_witness :
    Event.mk "visit_logs" 1 ∉ (trackerRun true [TrackerAct.enq "ai_search_logs" 0]).enqLog ∧
    Event.mk "visit_logs" 1 ∈
      (queueEvent true "visit_logs" 1
        (flushCall true (trackerRun true [TrackerAct.enq "ai_search_logs" 0]))).eventQueue :=
  ⟨by decide,
    (flushEvents_exactly_once.2 [TrackerAct.enq "ai_search_logs" 0] "visit_logs" 1
      (by decide)).1⟩

/-- Claim C8: `sendPing` issues its last-seen upsert — keyed by the device
identifier, marking the device active — exactly when analytics is enabled,
the tab is visible, and the most recent user interaction lies within the
10-second recency window; when any of these fails it performs no network
operation. -/
theorem sendPing_condition (enabled isTabActive : Bool) (now lastActivity : Nat)
    (deviceId : String) (userName : Option String) :
    ((sendPing enabled isTabActive now lastActivity deviceId userName).isSome = true ↔
      (enabled = true ∧ isTabActive = true ∧ now - lastActivity ≤ MIN_ACTIVITY_GAP)) ∧
    (∀ u, sendPing enabled isTabActive now lastActivity deviceId userName = some u →
      u = ⟨deviceId, userName, true⟩) ∧
    (¬(enabled = true ∧ isTabActive = true ∧ now - lastActivity ≤ MIN_ACTIVITY_GAP) →
      sendPing enabled isTabActive now lastActivity deviceId userName = none) := by
  by_cases hgap : MIN_ACTIVITY_GAP < now - lastActivity
  · have hle : ¬ (now - lastActivity ≤ MIN_ACTIVITY_GAP) := Nat.not_le.2 hgap
    cases enabled <;> cases isTabActive <;> simp [sendPing, hgap, hle]
  · have hle : now - lastActivity ≤ MIN_ACTIVITY_GAP := Nat.not_lt.1 hgap
    cases enabled <;> cases isTabActive <;> simp [sendPing, hgap, hle]

/-- Witness for claim C8: a hidden tab yields no upsert. -/
theorem sendPing_condition_witness :
    sendPing true false 100000 95000 "device_1" none = none :=
  (sendPing_condition true false 100000 95000 "device_1" none).2.2 (by decide)

end Jawala
